import Mathlib

/-!
Verification of the ntfy.desktop background delivery engine.

Shallow embedding of the Rust sources under `src-tauri/src/`:
`config.rs` (AppConfig and its policy helpers), `ntfy.rs` (NtfyClient,
poll_messages, test_connection, and the dedup/policy portion of
start_polling) and `notifications.rs` (the dispatch chain and the icon
cache decision logic).  External crates (serde_json, reqwest, sha2,
notify-rust) are modelled as parameters or as outcome-valued inputs.
-/

namespace NtfyDesktop

/-- Persistent notification mode, from `config.rs` (enum
PersistentNotificationMode: Off, All, UrgentOnly). -/
inductive PersistentNotificationMode where
  | off
  | all
  | urgentOnly
deriving DecidableEq, Repr

/-- Notification sound options, from `config.rs` (enum NotificationSound). -/
inductive NotificationSound where
  | default
  | none
  | alert
  | bell
  | chime
  | pop
deriving DecidableEq, Repr

/-- A button action attached to a message, from `ntfy.rs` (struct NtfyAction). -/
structure NtfyAction where
  action : String
  label : String
  url : Option String
  clear : Option Bool
deriving DecidableEq, Repr

/-- Raw message from the ntfy NDJSON response, from `ntfy.rs` (struct
NtfyMessage).  `u8`/`u64` fields become `Nat`. -/
structure NtfyMessage where
  id : Option String
  time : Nat
  event : Option String
  topic : Option String
  title : Option String
  message : Option String
  priority : Option Nat
  tags : Option (List String)
  click : Option String
  actions : Option (List NtfyAction)
  icon : Option String
deriving DecidableEq, Repr

/-- Application configuration, from `config.rs` (struct AppConfig). -/
structure AppConfig where
  instance_url : String
  api_token : String
  auth_user : String
  auth_pass : String
  topics : String
  poll_rate : Nat
  datetime_format : String
  persistent_notifications : Bool
  persistent_notifications_mode : PersistentNotificationMode
  notification_sound : NotificationSound
  urgent_notification_sound : NotificationSound
  self_hosted_instance : Bool
  start_hidden : Bool
  quit_on_close : Bool
  hotkeys_enabled : Bool
  dev_tools : Bool
  welcome_completed : Bool
  urgent_priority_threshold : Nat
deriving DecidableEq, Repr

/-- The `Default` impl of AppConfig in `config.rs`. -/
def AppConfig.defaultConfig : AppConfig where
  instance_url := "https://ntfy.sh/app"
  api_token := ""
  auth_user := ""
  auth_pass := ""
  topics := "announcements,stats"
  poll_rate := 60
  datetime_format := "YYYY-MM-DD hh:mm a"
  persistent_notifications := false
  persistent_notifications_mode := PersistentNotificationMode.off
  notification_sound := NotificationSound.default
  urgent_notification_sound := NotificationSound.default
  self_hosted_instance := false
  start_hidden := false
  quit_on_close := false
  hotkeys_enabled := false
  dev_tools := false
  welcome_completed := false
  urgent_priority_threshold := 4

/-- Rust `str::trim_end_matches(char)` on a character list: all trailing
occurrences of `c` removed. -/
def trimEndMatchesChar (s : List Char) (c : Char) : List Char :=
  (s.reverse.dropWhile (fun x => x == c)).reverse

/-- Fuel-bounded repeated removal of the leading pattern `p`; with fuel
at least `s.length` this removes every repetition, which is the behavior
of Rust `str::trim_end_matches(&str)` seen on the reversed list. -/
def dropLeadRepFuel (p : List Char) : Nat → List Char → List Char
  | 0, s => s
  | Nat.succ n, s =>
    if p ≠ [] ∧ p.isPrefixOf s then dropLeadRepFuel p n (s.drop p.length) else s

/-- Rust `str::trim_end_matches(&str)` on a character list: all trailing
repetitions of the pattern `p` removed. -/
def trimEndMatchesStr (s : List Char) (p : List Char) : List Char :=
  (dropLeadRepFuel p.reverse s.reverse.length s.reverse).reverse

/-- Embeds `AppConfig::api_base_url` from `config.rs`:
`instance_url.trim_end_matches('/').trim_end_matches("/app")`. -/
def AppConfig.api_base_url (cfg : AppConfig) : String :=
  String.mk (trimEndMatchesStr (trimEndMatchesChar cfg.instance_url.data '/') "/app".data)

/-- Embeds `AppConfig::effective_poll_rate` from `config.rs`:
`poll_rate.clamp(5, 3600)` with Rust `Ord::clamp` semantics. -/
def AppConfig.effective_poll_rate (cfg : AppConfig) : Nat :=
  if cfg.poll_rate < 5 then 5
  else if cfg.poll_rate > 3600 then 3600
  else cfg.poll_rate

/-- Embeds `AppConfig::should_persist_notification` from `config.rs`. -/
def AppConfig.should_persist_notification (cfg : AppConfig) (is_urgent : Bool) : Bool :=
  match cfg.persistent_notifications_mode with
  | PersistentNotificationMode.off => false
  | PersistentNotificationMode.all => true
  | PersistentNotificationMode.urgentOnly => is_urgent

/-- Embeds `AppConfig::notification_sound_for` from `config.rs`. -/
def AppConfig.notification_sound_for (cfg : AppConfig) (is_urgent : Bool) : NotificationSound :=
  if is_urgent then cfg.urgent_notification_sound else cfg.notification_sound

/-- The single authorization mode applied to an outgoing request by
`NtfyClient::apply_auth` in `ntfy.rs`: a Bearer header, an HTTP Basic
pair, or no Authorization header at all. -/
inductive AuthMode where
  | bearer (header : String)
  | basic (user : String) (pass : String)
  | noAuth
deriving DecidableEq, Repr

/-- Embeds `NtfyClient::apply_auth` from `ntfy.rs`: Bearer header when a token
is set, else basic auth when a user is set (password defaulting to ""),
else nothing. -/
def apply_auth (api_token : Option String) (auth_user : Option String)
    (auth_pass : Option String) : AuthMode :=
  match api_token with
  | some token => AuthMode.bearer ("Bearer " ++ token)
  | none =>
    match auth_user with
    | some user => AuthMode.basic user (auth_pass.getD "")
    | none => AuthMode.noAuth

/-- The auth fields written into the shared NtfyClient by `start_polling`
in `ntfy.rs` (empty strings become `None`), composed with `apply_auth`. -/
def client_auth_from_config (api_token auth_user auth_pass : String) : AuthMode :=
  apply_auth (if api_token ≠ "" then some api_token else none)
    (if auth_user ≠ "" then some auth_user else none)
    (if auth_pass ≠ "" then some auth_pass else none)

/-- The NDJSON body loop of `NtfyClient::poll_messages` in `ntfy.rs`:
trim each line, skip blanks, parse each non-blank line independently
(`serde_json::from_str` is the parameter `parse`; a failed parse is
logged and skipped), and keep only messages whose event is "message". -/
def poll_parse_lines (parse : String → Option NtfyMessage) :
    List String → List NtfyMessage
  | [] => []
  | line :: rest =>
    let l := line.trim
    if l.isEmpty then
      poll_parse_lines parse rest
    else
      match parse l with
      | some msg =>
        if msg.event = some "message" then msg :: poll_parse_lines parse rest
        else poll_parse_lines parse rest
      | none => poll_parse_lines parse rest

/-- Modelled from the spec: the declarative description of the NDJSON
pipeline ("split on newlines, blank lines skipped, each non-blank line
parsed independently, only event `message` retained"), for comparison
with the loop `poll_parse_lines` taken from the source. -/
def poll_parse_lines_spec (parse : String → Option NtfyMessage)
    (ls : List String) : List NtfyMessage :=
  (((ls.map String.trim).filter (fun l => !l.isEmpty)).filterMap parse).filter
    (fun m => decide (m.event = some "message"))

/-- Error outcomes of `NtfyClient::poll_messages` in `ntfy.rs`. -/
inductive PollError where
  | unauthorized
  | rateLimited
  | httpError (status : Nat)
  | connection
deriving DecidableEq, Repr

/-- Embeds `NtfyClient::poll_messages` from `ntfy.rs`, abstracted over the HTTP
exchange: the input is `none` for a transport-level send failure, or
`some (status, body?)` where `body?` is `none` when reading the response
text itself fails.  Status checks follow the source order: 401, then
429, then any non-2xx, then the NDJSON body loop. -/
def poll_messages (parse : String → Option NtfyMessage)
    (resp : Option (Nat × Option String)) : Except PollError (List NtfyMessage) :=
  match resp with
  | none => Except.error PollError.connection
  | some (status, bodyOpt) =>
    if status = 401 then Except.error PollError.unauthorized
    else if status = 429 then Except.error PollError.rateLimited
    else if ¬(200 ≤ status ∧ status < 300) then Except.error (PollError.httpError status)
    else
      match bodyOpt with
      | none => Except.error PollError.connection
      | some body => Except.ok (poll_parse_lines parse (body.splitOn "\n"))

/-- Error outcomes of `NtfyClient::test_connection` in `ntfy.rs`. -/
inductive TestConnError where
  | http (status : Nat) (body : String)
  | textRead
  | connectionFailed
deriving DecidableEq, Repr

/-- Embeds `NtfyClient::test_connection` from `ntfy.rs`: `Ok(true)` on a 2xx
status, an error carrying the status and body text on any other status
(or a text-read failure), and a connection error when send fails. -/
def test_connection (resp : Option (Nat × Option String)) : Except TestConnError Bool :=
  match resp with
  | none => Except.error TestConnError.connectionFailed
  | some (status, bodyOpt) =>
    if 200 ≤ status ∧ status < 300 then Except.ok true
    else
      match bodyOpt with
      | some body => Except.error (TestConnError.http status body)
      | none => Except.error TestConnError.textRead

/-- The per-batch dedup loop of `start_polling` in `ntfy.rs`: a message
with no id is skipped (`continue`), an id already in `seen_ids` is
skipped, otherwise the id is inserted into `seen_ids` and the message is
delivered.  The `HashSet<String>` is modelled as a `List String` with
membership; returns (delivered messages in order, updated tracker). -/
def processBatch (seen : List String) :
    List NtfyMessage → List NtfyMessage × List String
  | [] => ([], seen)
  | msg :: rest =>
    match msg.id with
    | none => processBatch seen rest
    | some i =>
      if i ∈ seen then processBatch seen rest
      else
        let r := processBatch (i :: seen) rest
        (msg :: r.1, r.2)

/-- A whole tracker epoch of `start_polling`: successive poll cycles
(each delivering one batch through `processBatch`) between two clears of
`seen_ids`. -/
def processEpoch (seen : List String) :
    List (List NtfyMessage) → List NtfyMessage × List String
  | [] => ([], seen)
  | batch :: more =>
    let r := processBatch seen batch
    let r2 := processEpoch r.2 more
    (r.1 ++ r2.1, r2.2)

/-- The (urgent, sound, persistent) triple derived in `start_polling`. -/
structure DerivedPolicy where
  urgent : Bool
  sound : NotificationSound
  persistent : Bool
deriving DecidableEq, Repr

/-- The policy derivation block of `start_polling` in `ntfy.rs`:
`priority = msg.priority.unwrap_or(3)`, `urgent = priority >=
urgent_threshold`, sound chosen between the regular and urgent sounds,
and `persistent` by match on the persistence mode. -/
def derive_policy (msg : NtfyMessage) (cfg : AppConfig) : DerivedPolicy :=
  let priority := msg.priority.getD 3
  let urgent : Bool := decide (priority ≥ cfg.urgent_priority_threshold)
  { urgent := urgent
    sound := if urgent then cfg.urgent_notification_sound else cfg.notification_sound
    persistent :=
      match cfg.persistent_notifications_mode with
      | PersistentNotificationMode.off => false
      | PersistentNotificationMode.all => true
      | PersistentNotificationMode.urgentOnly => urgent }

/-- Outcome of trying to run the external toast helper (ntfytoast.exe)
in `NotificationManager::show_notification_windows`: the helper binary
may be missing, execution may fail, or it exits with a code (`-1` when
the process was killed before exiting). -/
inductive WinToastOutcome where
  | helperNotFound
  | execError
  | exited (code : Int)
deriving DecidableEq, Repr

/-- Environment of externally determined outcomes for one dispatch
through `NotificationManager` in `notifications.rs`. -/
structure DispatchEnv where
  winToast : WinToastOutcome
  fallbackShow : Except String Nat
  scriptResult : Except String Unit
  cliResult : Except String Unit

/-- Target platform of the `cfg(target_os)` blocks in `notifications.rs`. -/
inductive Platform where
  | windows
  | macos
  | linux
deriving DecidableEq, Repr

/-- Embeds `NotificationManager::show_notification_fallback` from
`notifications.rs`: the notify-rust `show()` result is logged whether it
succeeded or failed, and the function returns `Ok(())` either way. -/
def show_notification_fallback (env : DispatchEnv) : Except String Unit :=
  match env.fallbackShow with
  | Except.ok _ => Except.ok ()
  | Except.error _ => Except.ok ()

/-- Embeds `NotificationManager::show_notification_windows` from
`notifications.rs`: missing helper or execution failure falls back to
notify-rust; exit codes 0-5 are success; any other exit code also falls
back to notify-rust. -/
def show_notification_windows (env : DispatchEnv) : Except String Unit :=
  match env.winToast with
  | WinToastOutcome.helperNotFound => show_notification_fallback env
  | WinToastOutcome.execError => show_notification_fallback env
  | WinToastOutcome.exited code =>
    if code = 0 ∨ code = 1 ∨ code = 2 ∨ code = 3 ∨ code = 4 ∨ code = 5 then
      Except.ok ()
    else
      show_notification_fallback env

/-- Embeds `NotificationManager::show_notification_full` from
`notifications.rs`: Windows delegates to the toast helper chain; macOS
runs osascript and discards its result (`let _ = ...output()`); Linux
runs notify-send and discards its result. -/
def show_notification_full (platform : Platform) (env : DispatchEnv) :
    Except String Unit :=
  match platform with
  | Platform.windows => show_notification_windows env
  | Platform.macos =>
    match env.scriptResult with
    | _ => Except.ok ()
  | Platform.linux =>
    match env.cliResult with
    | _ => Except.ok ()

/-- Seven days in seconds, the icon cache TTL in
`NotificationManager::get_cached_icon_path`. -/
def seven_days_secs : Nat := 7 * 24 * 60 * 60

/-- Outcome of reading the filesystem metadata of the cache file in
`get_cached_icon_path`: metadata read failure, modified-time read
failure, or a successfully computed age in seconds. -/
inductive CacheMetaRead where
  | metaErr
  | modifiedErr
  | ageSecs (age : Nat)
deriving DecidableEq, Repr

/-- The cache file name built in `get_cached_icon_path`:
`format ("\x7b\x7d.png", url_hash[..16])` where `url_hash` is the hex
SHA-256 digest of the URL (`sha2::Sha256` is the parameter
`sha256hex`; hex digits are ASCII so byte slicing is character take). -/
def icon_cache_filename (sha256hex : String → String) (url : String) : String :=
  String.mk ((sha256hex url).data.take 16) ++ ".png"

/-- The cache-validity decision of `get_cached_icon_path` in
`notifications.rs`: an existing entry is used when its age is under 7
days; when metadata or modified time cannot be read the entry is
assumed valid; a missing entry is never used. -/
def cache_entry_valid (entryExists : Bool) (meta : CacheMetaRead) : Bool :=
  if entryExists then
    match meta with
    | CacheMetaRead.ageSecs age => decide (age < seven_days_secs)
    | CacheMetaRead.modifiedErr => true
    | CacheMetaRead.metaErr => true
  else
    false

/-- What `get_cached_icon_path` does with the cache entry: return the
cached path, or go on to (re)download. -/
inductive IconCacheAction where
  | useCached (path : String)
  | redownload
deriving DecidableEq, Repr

/-- The cache-hit branch of `NotificationManager::get_cached_icon_path`:
use the cached file exactly when `cache_entry_valid`, otherwise fall
through to the download-and-write path. -/
def get_cached_icon_path (sha256hex : String → String) (url : String)
    (entryExists : Bool) (meta : CacheMetaRead) : IconCacheAction :=
  if cache_entry_valid entryExists meta then
    IconCacheAction.useCached (icon_cache_filename sha256hex url)
  else
    IconCacheAction.redownload

/-- Helper: in one batch, every delivered message carries an id that was
not yet tracked, the delivered ids are pairwise distinct, and the
tracker grows by exactly the delivered ids. -/
theorem processBatch_spec (msgs : List NtfyMessage) :
    ∀ seen : List String,
      (∀ m ∈ (processBatch seen msgs).1, ∃ i, m.id = some i ∧ i ∉ seen) ∧
      ((processBatch seen msgs).1.filterMap (fun m => m.id)).Nodup ∧
      (processBatch seen msgs).2 =
        ((processBatch seen msgs).1.filterMap (fun m => m.id)).reverse ++ seen := by
  induction msgs with
  | nil =>
    intro seen
    simp [processBatch]
  | cons msg rest ih =>
    intro seen
    cases hid : msg.id with
    | none =>
      simp only [processBatch, hid]
      exact ih seen
    | some i =>
      by_cases hmem : i ∈ seen
      · simp only [processBatch, hid, if_pos hmem]
        exact ih seen
      · simp only [processBatch, hid, if_neg hmem]
        obtain ⟨ha, hb, hc⟩ := ih (i :: seen)
        refine ⟨?_, ?_, ?_⟩
        · intro m hm
          rcases List.mem_cons.mp hm with h | h
          · exact ⟨i, by rw [h, hid], hmem⟩
          · obtain ⟨j, hj1, hj2⟩ := ha m h
            exact ⟨j, hj1, fun hjseen => hj2 (List.mem_cons_of_mem _ hjseen)⟩
        · simp only [List.filterMap_cons, hid]
          refine List.nodup_cons.mpr ⟨?_, hb⟩
          intro hmemids
          obtain ⟨m, hm, hmid⟩ := List.mem_filterMap.mp hmemids
          obtain ⟨j, hj1, hj2⟩ := ha m hm
          rw [hj1] at hmid
          injection hmid with hij
          exact hj2 (hij ▸ List.mem_cons_self i seen)
        · simp only [List.filterMap_cons, hid]
          rw [hc]
          simp [List.reverse_cons, List.append_assoc]

/-- Helper: over a whole tracker epoch (several successive batches with
no clear in between), every delivered message carries a previously
untracked id, the delivered ids are pairwise distinct, and the tracker
grows by exactly the delivered ids. -/
theorem processEpoch_spec (batches : List (List NtfyMessage)) :
    ∀ seen : List String,
      (∀ m ∈ (processEpoch seen batches).1, ∃ i, m.id = some i ∧ i ∉ seen) ∧
      ((processEpoch seen batches).1.filterMap (fun m => m.id)).Nodup ∧
      (processEpoch seen batches).2 =
        ((processEpoch seen batches).1.filterMap (fun m => m.id)).reverse ++ seen := by
  induction batches with
  | nil =>
    intro seen
    simp [processEpoch]
  | cons batch more ih =>
    intro seen
    obtain ⟨ba, bb, bc⟩ := processBatch_spec batch seen
    obtain ⟨ea, eb, ec⟩ := ih (processBatch seen batch).2
    have hsub : ∀ j : String, j ∈ (processBatch seen batch).2 ↔
        j ∈ ((processBatch seen batch).1.filterMap (fun m => m.id)).reverse ++ seen := by
      intro j
      rw [bc]
    simp only [processEpoch]
    refine ⟨?_, ?_, ?_⟩
    · intro m hm
      rcases List.mem_append.mp hm with h | h
      · exact ba m h
      · obtain ⟨j, hj1, hj2⟩ := ea m h
        refine ⟨j, hj1, fun hjseen => hj2 ?_⟩
        exact (hsub j).mpr (List.mem_append.mpr (Or.inr hjseen))
    · rw [List.filterMap_append]
      rw [List.nodup_append]
      refine ⟨bb, eb, ?_⟩
      intro a hain haout
      obtain ⟨m, hm, hmid⟩ := List.mem_filterMap.mp haout
      obtain ⟨j, hj1, hj2⟩ := ea m hm
      rw [hj1] at hmid
      injection hmid with hij
      apply hj2
      refine (hsub j).mpr (List.mem_append.mpr (Or.inl ?_))
      rw [List.mem_reverse]
      exact hij ▸ hain
    · rw [ec, bc, List.filterMap_append]
      simp [List.reverse_append, List.append_assoc]

/-- C1: over any tracker epoch, every delivered message has an
identifier, no identifier is delivered twice, no identifier already in
the tracker at the start of the epoch is delivered, and the tracker
grows by exactly the delivered identifiers (so id-less messages are
never tracked, and ids are inserted as part of delivery). -/
theorem dedup_at_most_once_per_epoch (seen : List String)
    (batches : List (List NtfyMessage)) :
    ((processEpoch seen batches).1.all (fun m => m.id.isSome)) = true ∧
    ((processEpoch seen batches).1.filterMap (fun m => m.id)).Nodup ∧
    (((processEpoch seen batches).1.filterMap (fun m => m.id)).all
      (fun i => !seen.contains i)) = true ∧
    (processEpoch seen batches).2 =
      ((processEpoch seen batches).1.filterMap (fun m => m.id)).reverse ++ seen := by
  obtain ⟨ha, hb, hc⟩ := processEpoch_spec batches seen
  refine ⟨?_, hb, ?_, hc⟩
  · rw [List.all_eq_true]
    intro m hm
    obtain ⟨i, hi, _⟩ := ha m hm
    simp [hi]
  · rw [List.all_eq_true]
    intro i hi
    obtain ⟨m, hm, hmi⟩ := List.mem_filterMap.mp hi
    obtain ⟨j, hj1, hj2⟩ := ha m hm
    rw [hj1] at hmi
    injection hmi with hij
    subst hij
    simpa using hj2

/-- Helper: the notify-rust fallback path always returns `Ok(())`. -/
theorem show_notification_fallback_ok (env : DispatchEnv) :
    show_notification_fallback env = Except.ok () := by
  cases h : env.fallbackShow <;> simp [show_notification_fallback, h]

/-- C2: for every retained message, policy derivation computes urgency as
`(priority, defaulting to 3) >= urgency_threshold`, picks the urgent
sound exactly when urgent, and persists according to the mode: off gives
false, all gives true, urgent_only gives the urgency flag; the inline
derivation in `start_polling` agrees with the `AppConfig` helpers. -/
theorem policy_derivation_table (msg : NtfyMessage) (cfg : AppConfig) (u : Bool) :
    (derive_policy msg cfg).urgent =
      decide (msg.priority.getD 3 ≥ cfg.urgent_priority_threshold) ∧
    (derive_policy msg cfg).sound =
      (if (derive_policy msg cfg).urgent then cfg.urgent_notification_sound
       else cfg.notification_sound) ∧
    (derive_policy msg cfg).sound =
      cfg.notification_sound_for (derive_policy msg cfg).urgent ∧
    (derive_policy msg cfg).persistent =
      cfg.should_persist_notification (derive_policy msg cfg).urgent ∧
    ({ cfg with persistent_notifications_mode :=
        PersistentNotificationMode.off } : AppConfig).should_persist_notification u = false ∧
    ({ cfg with persistent_notifications_mode :=
        PersistentNotificationMode.all } : AppConfig).should_persist_notification u = true ∧
    ({ cfg with persistent_notifications_mode :=
        PersistentNotificationMode.urgentOnly } : AppConfig).should_persist_notification u = u := by
  refine ⟨rfl, rfl, rfl, ?_, rfl, rfl, rfl⟩
  cases h : cfg.persistent_notifications_mode <;>
    simp [derive_policy, AppConfig.should_persist_notification, h]

/-- Helper: the NDJSON loop of `poll_messages` agrees with its
declarative description. -/
theorem poll_parse_lines_eq_spec (parse : String → Option NtfyMessage)
    (ls : List String) :
    poll_parse_lines parse ls = poll_parse_lines_spec parse ls := by
  induction ls with
  | nil => rfl
  | cons line rest ih =>
    by_cases he : line.trim.isEmpty
    · simpa [poll_parse_lines, poll_parse_lines_spec, he] using ih
    · cases hp : parse line.trim with
      | none =>
        simpa [poll_parse_lines, poll_parse_lines_spec, he, hp] using ih
      | some msg =>
        by_cases hev : msg.event = some "message"
        · simpa [poll_parse_lines, poll_parse_lines_spec, he, hp, hev] using ih
        · simpa [poll_parse_lines, poll_parse_lines_spec, he, hp, hev] using ih

/-- Helper: the declarative NDJSON pipeline distributes over list
append: lines are processed independently of each other. -/
theorem poll_parse_lines_spec_append (parse : String → Option NtfyMessage)
    (l1 l2 : List String) :
    poll_parse_lines_spec parse (l1 ++ l2) =
      poll_parse_lines_spec parse l1 ++ poll_parse_lines_spec parse l2 := by
  simp [poll_parse_lines_spec, List.filter_append, List.filterMap_append]

/-- Helper: every message retained by the NDJSON loop has event kind
"message". -/
theorem poll_parse_lines_events (parse : String → Option NtfyMessage)
    (ls : List String) :
    (poll_parse_lines parse ls).all
      (fun m => decide (m.event = some "message")) = true := by
  rw [poll_parse_lines_eq_spec, List.all_eq_true]
  intro m hm
  exact (List.mem_filter.mp hm).2

/-- C3: the poll body is split on newlines with blank lines skipped,
each non-blank line parsed independently as one message, a line that
fails to parse dropped without aborting the others (processing
distributes over concatenation of line lists), and exactly the parsed
messages whose event kind is "message" retained. -/
theorem ndjson_line_isolation (parse : String → Option NtfyMessage)
    (ls l1 l2 : List String) (body : String) :
    poll_parse_lines parse ls = poll_parse_lines_spec parse ls ∧
    poll_parse_lines parse (l1 ++ l2) =
      poll_parse_lines parse l1 ++ poll_parse_lines parse l2 ∧
    (poll_parse_lines parse ls).all
      (fun m => decide (m.event = some "message")) = true ∧
    poll_messages parse (some (200, some body)) =
      Except.ok (poll_parse_lines parse (body.splitOn "\n")) := by
  refine ⟨poll_parse_lines_eq_spec parse ls, ?_,
    poll_parse_lines_events parse ls, ?_⟩
  · rw [poll_parse_lines_eq_spec, poll_parse_lines_eq_spec,
      poll_parse_lines_eq_spec, poll_parse_lines_spec_append]
  · rfl

/-- C4: `poll_messages` returns the distinguished unauthorized error
exactly for status 401, the distinguished rate-limited error exactly
for status 429, the generic HTTP error exactly for the remaining
non-2xx statuses, a connection error for transport failures, and a
message list only for 2xx statuses with a readable body. -/
theorem poll_messages_status_taxonomy (parse : String → Option NtfyMessage)
    (s : Nat) (b : Option String) :
    poll_messages parse none = Except.error PollError.connection ∧
    ((poll_messages parse (some (s, b)) = Except.error PollError.unauthorized) ↔
      s = 401) ∧
    ((poll_messages parse (some (s, b)) = Except.error PollError.rateLimited) ↔
      s = 429) ∧
    ((poll_messages parse (some (s, b)) = Except.error (PollError.httpError s)) ↔
      (¬(200 ≤ s ∧ s < 300) ∧ s ≠ 401 ∧ s ≠ 429)) ∧
    ((∃ msgs, poll_messages parse (some (s, b)) = Except.ok msgs) ↔
      ((200 ≤ s ∧ s < 300) ∧ b.isSome = true)) := by
  refine ⟨rfl, ?_, ?_, ?_, ?_⟩ <;>
  · simp only [poll_messages]
    split_ifs with h1 h2 h3 <;> cases b <;> simp_all

/-- Witness for C4 at concrete statuses 404, 401 and 429. -/
theorem poll_messages_status_taxonomy_witness :
    poll_messages (fun _ => none) (some (404, some "")) =
      Except.error (PollError.httpError 404) ∧
    poll_messages (fun _ => none) (some (401, some "")) =
      Except.error PollError.unauthorized ∧
    poll_messages (fun _ => none) (some (429, some "")) =
      Except.error PollError.rateLimited := by
  refine ⟨?_, ?_, ?_⟩
  · exact (poll_messages_status_taxonomy (fun _ => none) 404 (some "")).2.2.2.1.mpr
      (by norm_num)
  · exact (poll_messages_status_taxonomy (fun _ => none) 401 (some "")).2.1.mpr rfl
  · exact (poll_messages_status_taxonomy (fun _ => none) 429 (some "")).2.2.1.mpr rfl

/-- C5: the effective poll rate is the configured rate clamped to
[5, 3600]; in particular 3 gives 5, 5000 gives 3600, 5 gives 5 and 3600
gives 3600, so the effective interval always lies within [5, 3600]. -/
theorem effective_poll_rate_clamped (cfg : AppConfig) :
    cfg.effective_poll_rate = min (max cfg.poll_rate 5) 3600 ∧
    5 ≤ cfg.effective_poll_rate ∧
    cfg.effective_poll_rate ≤ 3600 ∧
    ({ cfg with poll_rate := 3 } : AppConfig).effective_poll_rate = 5 ∧
    ({ cfg with poll_rate := 5000 } : AppConfig).effective_poll_rate = 3600 ∧
    ({ cfg with poll_rate := 5 } : AppConfig).effective_poll_rate = 5 ∧
    ({ cfg with poll_rate := 3600 } : AppConfig).effective_poll_rate = 3600 := by
  refine ⟨?_, ?_, ?_, by simp [AppConfig.effective_poll_rate],
    by simp [AppConfig.effective_poll_rate], by simp [AppConfig.effective_poll_rate],
    by simp [AppConfig.effective_poll_rate]⟩ <;>
  · simp only [AppConfig.effective_poll_rate]
    split_ifs <;> omega

/-- C6: exactly one authorization mode is applied: a Bearer header when
a token is configured (taking precedence over basic credentials), else
HTTP Basic with the configured user and password (password defaulting
to empty), else no Authorization header. -/
theorem apply_auth_exactly_one (t u p : String) (pOpt : Option String) :
    apply_auth (some t) (some u) pOpt = AuthMode.bearer ("Bearer " ++ t) ∧
    apply_auth (some t) none pOpt = AuthMode.bearer ("Bearer " ++ t) ∧
    apply_auth none (some u) (some p) = AuthMode.basic u p ∧
    apply_auth none (some u) none = AuthMode.basic u "" ∧
    apply_auth none none pOpt = AuthMode.noAuth ∧
    client_auth_from_config t u p =
      (if t ≠ "" then AuthMode.bearer ("Bearer " ++ t)
       else if u ≠ "" then AuthMode.basic u (if p ≠ "" then p else "")
       else AuthMode.noAuth) := by
  refine ⟨rfl, rfl, rfl, rfl, rfl, ?_⟩
  unfold client_auth_from_config apply_auth
  split_ifs <;> rfl

/-- Witness for C6 at a concrete token, user and password. -/
theorem apply_auth_exactly_one_witness :
    apply_auth (some "tok") (some "user") (some "pw") = AuthMode.bearer "Bearer tok" ∧
    client_auth_from_config "tok" "user" "pw" = AuthMode.bearer "Bearer tok" := by
  have h := apply_auth_exactly_one "tok" "user" "pw" (some "pw")
  refine ⟨h.1.trans (by decide), ?_⟩
  rw [h.2.2.2.2.2]
  decide

/-- C7: `show_notification_full` never returns an error: every failure
in the platform dispatch chain (missing helper, execution error,
unknown exit code, fallback library error, script or CLI invocation)
is logged and swallowed. -/
theorem show_notification_full_never_errors (platform : Platform)
    (env : DispatchEnv) :
    show_notification_full platform env = Except.ok () := by
  obtain ⟨wt, fb, sr, cr⟩ := env
  cases platform with
  | windows =>
    cases wt with
    | helperNotFound => exact show_notification_fallback_ok _
    | execError => exact show_notification_fallback_ok _
    | exited code =>
      show (if code = 0 ∨ code = 1 ∨ code = 2 ∨ code = 3 ∨ code = 4 ∨ code = 5 then
        Except.ok () else show_notification_fallback _) = Except.ok ()
      split
      · rfl
      · exact show_notification_fallback_ok _
  | macos => rfl
  | linux => rfl

/-- C8 counterexample: a cache entry whose filesystem metadata cannot be
read is used as-is rather than invalidated and redownloaded, refuting
the claim that a read failure triggers a redownload. -/
theorem icon_cache_read_failure_uses_cache :
    get_cached_icon_path
      (fun _ => "0123456789abcdef0123456789abcdef0123456789abcdef0123456789abcdef")
      "https://example.com/icon.png" true CacheMetaRead.metaErr =
      IconCacheAction.useCached "0123456789abcdef.png" ∧
    ¬ get_cached_icon_path
      (fun _ => "0123456789abcdef0123456789abcdef0123456789abcdef0123456789abcdef")
      "https://example.com/icon.png" true CacheMetaRead.metaErr =
      IconCacheAction.redownload := by
  refine ⟨by decide, by decide⟩

/-- C8 (amended): the cache entry is keyed by the first 16 hex characters
of the SHA-256 digest of the URL with a `.png` extension; a missing
entry is downloaded; an existing entry is returned while its age is
under 7 days and redownloaded once the age reaches 7 days; when the
metadata or modified time cannot be read the entry is assumed valid and
returned, not redownloaded. -/
theorem icon_cache_ttl_behavior (h : String → String) (url : String)
    (meta : CacheMetaRead) (age : Nat) :
    (icon_cache_filename h url).data = (h url).data.take 16 ++ ".png".data ∧
    get_cached_icon_path h url false meta = IconCacheAction.redownload ∧
    get_cached_icon_path h url true (CacheMetaRead.ageSecs age) =
      (if age < seven_days_secs then
        IconCacheAction.useCached (icon_cache_filename h url)
       else IconCacheAction.redownload) ∧
    get_cached_icon_path h url true CacheMetaRead.metaErr =
      IconCacheAction.useCached (icon_cache_filename h url) ∧
    get_cached_icon_path h url true CacheMetaRead.modifiedErr =
      IconCacheAction.useCached (icon_cache_filename h url) := by
  refine ⟨?_, rfl, ?_, rfl, rfl⟩
  · simp [icon_cache_filename]
  · simp only [get_cached_icon_path, cache_entry_valid]
    split_ifs <;> simp_all

/-- C9: the API base URL strips a trailing `/app` suffix and trailing
slashes: `https://host/app` and `https://host/app/` both map to
`https://host`, and `https://host` is unchanged with no trailing slash
added. -/
theorem api_base_url_normalization :
    ({ AppConfig.defaultConfig with
        instance_url := "https://host/app" } : AppConfig).api_base_url = "https://host" ∧
    ({ AppConfig.defaultConfig with
        instance_url := "https://host/app/" } : AppConfig).api_base_url = "https://host" ∧
    ({ AppConfig.defaultConfig with
        instance_url := "https://host" } : AppConfig).api_base_url = "https://host" := by
  refine ⟨by decide, by decide, by decide⟩

/-- C10: `test_connection` never returns `Ok(false)`: it returns
`Ok(true)` exactly when the HTTP status is 2xx, an error for every
non-2xx status, and a connection error when the request itself fails. -/
theorem test_connection_never_ok_false (resp : Option (Nat × Option String))
    (s : Nat) (b : Option String) :
    test_connection resp ≠ Except.ok false ∧
    ((test_connection (some (s, b)) = Except.ok true) ↔ (200 ≤ s ∧ s < 300)) ∧
    ((∃ e, test_connection (some (s, b)) = Except.error e) ↔ ¬(200 ≤ s ∧ s < 300)) ∧
    test_connection none = Except.error TestConnError.connectionFailed := by
  refine ⟨?_, ?_, ?_, rfl⟩
  · cases resp with
    | none => simp [test_connection]
    | some sb =>
      obtain ⟨st, bo⟩ := sb
      simp only [test_connection]
      split
      · simp
      · cases bo <;> simp
  · simp only [test_connection]
    split
    · simp_all
    · cases b <;> simp_all
  · simp only [test_connection]
    split
    · simp_all
    · cases b <;> simp_all

/-- Witness for C10 at concrete statuses 200 and 503. -/
theorem test_connection_witness :
    test_connection (some (200, some "")) = Except.ok true ∧
    (∃ e, test_connection (some (503, some "overload")) = Except.error e) := by
  refine ⟨?_, ?_⟩
  · exact (test_connection_never_ok_false (some (200, some "")) 200 (some "")).2.1.mpr
      (by norm_num)
  · exact (test_connection_never_ok_false (some (503, some "overload")) 503
      (some "overload")).2.2.1.mpr (by norm_num)

end NtfyDesktop
